import Mathlib

/-!
Verification of the type-string parser/serializer and interning cache in
`onnx/defs/data_type_utils.cc`.

The development shallowly embeds the source file:

* `TypesWrapper`'s three tables (name → code, code → name, validity set),
* the `StringRange` slicing primitive (`data_`/`size_` view over a borrowed
  buffer plus the `start_`/`end_` capture window), with all of its strip
  operations,
* the codec `DataTypeUtils::FromString` / `DataTypeUtils::ToString` /
  `DataTypeUtils::FromDataTypeString` / `DataTypeUtils::ToDataTypeString`,
* the interning cache `DataTypeUtils::ToType` over `GetTypeStrToProtoMap`.

C++ machine details are modelled as follows: a `StringRange`'s pointers
become offsets into an explicit `buf : List Char`; `std::unordered_map`
becomes an association list (keys are distinct, and `DataType`, a pointer
to a map key, becomes the key string itself: two `DataType` pointers into
the map are equal exactly when the key strings are equal); failed
assertions become `Except.error` with the error taxonomy named by the
specification.
-/

namespace Onnx
namespace Utils

/-- C `isspace` for the default locale on ASCII input: space, TAB, LF, VT,
FF, CR. -/
def isspace (c : Char) : Bool :=
  c = ' ' || c = '\t' || c = '\n' || c = '\x0b' || c = '\x0c' || c = '\r'

/-- Modelled from the spec: the protobuf `TensorProto::DataType` element-type
codes (`onnx.proto` is an external collaborator of this core, §1 of the
spec; the codes are the standard ONNX enumeration values, used as opaque
distinct integers). -/
def TensorProto_DataType_FLOAT : Nat := 1

def TensorProto_DataType_UINT8 : Nat := 2

def TensorProto_DataType_INT8 : Nat := 3

def TensorProto_DataType_UINT16 : Nat := 4

def TensorProto_DataType_INT16 : Nat := 5

def TensorProto_DataType_INT32 : Nat := 6

def TensorProto_DataType_INT64 : Nat := 7

def TensorProto_DataType_STRING : Nat := 8

def TensorProto_DataType_BOOL : Nat := 9

def TensorProto_DataType_FLOAT16 : Nat := 10

def TensorProto_DataType_DOUBLE : Nat := 11

def TensorProto_DataType_UINT32 : Nat := 12

def TensorProto_DataType_UINT64 : Nat := 13

def TensorProto_DataType_COMPLEX64 : Nat := 14

def TensorProto_DataType_COMPLEX128 : Nat := 15

/-- The `type_str_to_tensor_data_type_` table, in the insertion order of
`TypesWrapper::TypesWrapper()` (an `unordered_map`: keys are distinct, so
lookup is order-independent). -/
def type_str_to_tensor_data_type : List (String × Nat) :=
  [("float", TensorProto_DataType_FLOAT),
   ("float16", TensorProto_DataType_FLOAT16),
   ("double", TensorProto_DataType_DOUBLE),
   ("int8", TensorProto_DataType_INT8),
   ("int16", TensorProto_DataType_INT16),
   ("int32", TensorProto_DataType_INT32),
   ("int64", TensorProto_DataType_INT64),
   ("uint8", TensorProto_DataType_UINT8),
   ("uint16", TensorProto_DataType_UINT16),
   ("uint32", TensorProto_DataType_UINT32),
   ("uint64", TensorProto_DataType_UINT64),
   ("complext64", TensorProto_DataType_COMPLEX64),
   ("complext128", TensorProto_DataType_COMPLEX128),
   ("string", TensorProto_DataType_STRING),
   ("bool", TensorProto_DataType_BOOL)]

/-- The `tensor_data_type_to_type_str_` table: built in the constructor by
inverting every `(name, code)` pair (codes are distinct, so the result is
independent of the `unordered_map` iteration order). -/
def tensor_data_type_to_type_str : List (Nat × String) :=
  type_str_to_tensor_data_type.map (fun p => (p.2, p.1))

/-- The `allowed_data_types_` validity set: every key of
`type_str_to_tensor_data_type_`. -/
def allowed_data_types : List String :=
  type_str_to_tensor_data_type.map (fun p => p.1)

/-- Lookup in `type_str_to_tensor_data_type_` (`find`). -/
def nameToCode (s : String) : Option Nat :=
  (type_str_to_tensor_data_type.find? (fun p => p.1 == s)).map (fun p => p.2)

/-- Lookup in `tensor_data_type_to_type_str_` (`find`). -/
def codeToName (c : Nat) : Option String :=
  (tensor_data_type_to_type_str.find? (fun p => p.1 == c)).map (fun p => p.2)

/-- Models `DataTypeUtils::IsValidDataTypeString`: membership in
`allowed_data_types_`. -/
def IsValidDataTypeString (type_str : String) : Bool :=
  (allowed_data_types.find? (fun n => n == type_str)).isSome

/-- The error taxonomy named by the specification (§7); in the source these
conditions are failed `assert`s. -/
inductive TypeError where
  | InvalidTypeString
  | UnsupportedTypeDescriptor
  | UnknownElementCode
deriving DecidableEq

deriving instance DecidableEq for Except

/-- Modelled from the spec: the protobuf `TypeProto` message (an external
collaborator, §1/§3 of the spec): a tagged value whose only populated
variant is a tensor type carrying an element code and an optional shape.
`mutable_shape()` with no dimensions added gives `shape = some []`
(rank 0); a never-initialized shape is `none`. -/
inductive TypeProto where
  | unset
  | tensorType (elem_type : Nat) (shape : Option (List Nat))
deriving DecidableEq

/-- Models `StringRange`: `buf` is the borrowed external buffer; `off`/`size_`
model `data_`/`size_` (the valid view); `start_`/`endp` model the
`start_`/`end_` capture pointers, as offsets into `buf`. -/
structure StringRange where
  buf : List Char
  off : Nat
  size_ : Nat
  start_ : Nat
  endp : Nat
deriving DecidableEq

/-- The bytes of the valid range `[data_, data_ + size_)`. -/
def view (s : StringRange) : List Char :=
  (s.buf.drop s.off).take s.size_

/-- Well-formedness of a range: the valid view lies inside the borrowed
buffer (the caller obligation stated in the source's class comment). -/
def WF (s : StringRange) : Prop :=
  s.off + s.size_ ≤ s.buf.length

instance (s : StringRange) : Decidable (WF s) :=
  inferInstanceAs (Decidable (_ ≤ _))

/-- The count computed by the loop in `StringRange::LStrip()`: leading
characters of the view satisfying `isspace`. -/
def lspaceCount : List Char → Nat
  | [] => 0
  | c :: cs => if isspace c then lspaceCount cs + 1 else 0

/-- The count computed by the loop in `StringRange::RStrip()`: trailing
characters of the view satisfying `isspace`. -/
def rspaceCount (l : List Char) : Nat :=
  lspaceCount l.reverse

/-- Models `StringRange::LStrip(size_t)`. -/
def LStripN (s : StringRange) (n : Nat) : StringRange × Bool :=
  if n ≤ s.size_ then
    ({ s with off := s.off + n, size_ := s.size_ - n, endp := s.endp + n }, true)
  else (s, false)

/-- Models `StringRange::LStrip()`. -/
def LStripWs (s : StringRange) : StringRange × Bool :=
  let count := lspaceCount (view s)
  if 0 < count then LStripN s count else (s, false)

/-- Models `StringRange::StartsWith`. -/
def StartsWith (s t : StringRange) : Bool :=
  decide (t.size_ ≤ s.size_) && ((view s).take t.size_ == view t)

/-- Models `StringRange::LStrip(StringRange)`. -/
def LStripSR (s t : StringRange) : StringRange × Bool :=
  if StartsWith s t then LStripN s t.size_ else (s, false)

/-- Models `StringRange::RStrip(size_t)`. -/
def RStripN (s : StringRange) (n : Nat) : StringRange × Bool :=
  if n ≤ s.size_ then ({ s with size_ := s.size_ - n }, true) else (s, false)

/-- Models `StringRange::RStrip()`. -/
def RStripWs (s : StringRange) : StringRange × Bool :=
  let count := rspaceCount (view s)
  if 0 < count then RStripN s count else (s, false)

/-- Models `StringRange::EndsWith`. -/
def EndsWith (s t : StringRange) : Bool :=
  decide (t.size_ ≤ s.size_) && ((view s).drop (s.size_ - t.size_) == view t)

/-- Models `StringRange::RStrip(StringRange)`. -/
def RStripSR (s t : StringRange) : StringRange × Bool :=
  if EndsWith s t then RStripN s t.size_ else (s, false)

/-- Models `StringRange::LAndRStrip`. -/
def LAndRStrip (s : StringRange) : StringRange × Bool :=
  let p1 := LStripWs s
  let p2 := RStripWs p1.1
  (p2.1, p1.2 || p2.2)

/-- The `StringRange` constructors taking a buffer: `start_` and `end_`
are initialized to `data_`, then `LAndRStrip()` runs (its `LStrip`
advances `end_`). -/
def mkStringRange (str : String) : StringRange :=
  (LAndRStrip
    { buf := str.toList, off := 0, size_ := str.toList.length,
      start_ := 0, endp := 0 }).1

/-- Models `StringRange::ParensWhitespaceStrip`: `LStrip(); LStrip("(");
LAndRStrip(); RStrip(")"); RStrip();` — each step unconditional, in this
order. -/
def ParensWhitespaceStrip (s : StringRange) : StringRange :=
  let s1 := (LStripWs s).1
  let s2 := (LStripSR s1 (mkStringRange "(")).1
  let s3 := (LAndRStrip s2).1
  let s4 := (RStripSR s3 (mkStringRange ")")).1
  (RStripWs s4).1

/-- Models `StringRange::RestartCapture`. -/
def RestartCapture (s : StringRange) : StringRange :=
  { s with start_ := s.off, endp := s.off }

/-- Models `StringRange::GetCaptured`: returns `StringRange(start_, end_ - start_)`,
built with the constructor that runs `LAndRStrip()`. -/
def GetCaptured (s : StringRange) : StringRange :=
  (LAndRStrip
    { buf := s.buf, off := s.start_, size_ := s.endp - s.start_,
      start_ := s.start_, endp := s.start_ }).1

/-- Models `std::string(s.Data(), s.Size())`. -/
def rangeToString (s : StringRange) : String :=
  String.mk (view s)

/-- Models `DataTypeUtils::FromDataTypeString`: asserts
`IsValidDataTypeString(type_str)` (modelled as `InvalidTypeString`), then
reads `type_str_to_tensor_data_type_[type_str]` (`operator[]` would
value-initialize to `0` on a miss, which the assert rules out). -/
def FromDataTypeString (type_str : String) : Except TypeError Nat :=
  if IsValidDataTypeString type_str then
    .ok ((nameToCode type_str).getD 0)
  else
    .error .InvalidTypeString

/-- Models `DataTypeUtils::FromString`: trim, optionally strip the `"tensor"`
prefix; on a match unwrap `( ... )` and build an unshaped tensor proto,
otherwise build a scalar proto whose shape is initialized with zero
dimensions via `mutable_shape()`. -/
def FromString (type_str : String) : Except TypeError TypeProto :=
  let s := mkStringRange type_str
  let p := LStripSR s (mkStringRange "tensor")
  if p.2 then
    let s2 := ParensWhitespaceStrip p.1
    (FromDataTypeString (rangeToString s2)).map
      (fun e => TypeProto.tensorType e none)
  else
    (FromDataTypeString (rangeToString p.1)).map
      (fun e => TypeProto.tensorType e (some []))

/-- Models `DataTypeUtils::ToDataTypeString`: lookup in
`tensor_data_type_to_type_str_`; the `assert(found)` is modelled as
`UnknownElementCode`. -/
def ToDataTypeString (tensor_data_type : Nat) : Except TypeError String :=
  match codeToName tensor_data_type with
  | some n => .ok n
  | none => .error .UnknownElementCode

/-- Models `DataTypeUtils::ToString(type_proto, left, right)`: the scalar case is
`has_shape() && shape().dim_size() == 0`; the `default: assert(false)`
branch is modelled as `UnsupportedTypeDescriptor`. -/
def ToString (type_proto : TypeProto) (left right : String) :
    Except TypeError String :=
  match type_proto with
  | .tensorType e sh =>
      if (match sh with | some dims => dims.length == 0 | none => false) then
        (ToDataTypeString e).map (fun n => left ++ n ++ right)
      else
        (ToDataTypeString e).map
          (fun n => left ++ "tensor(" ++ n ++ ")" ++ right)
  | .unset => .error .UnsupportedTypeDescriptor

/-- A `DataType` is `const std::string*`, a pointer to a key of
`GetTypeStrToProtoMap()`; since the map's keys are distinct, pointer
identity of handles coincides with equality of the pointed-to canonical
strings, so a handle is modelled by its key string. -/
abbrev DataType := String

/-- The state of `DataTypeUtils::GetTypeStrToProtoMap()` as an association
list with distinct keys. -/
abbrev InternState := List (String × TypeProto)

/-- Models `DataTypeUtils::ToType(const TypeProto&)`: serialize, then under the
lock do a find / insert-if-absent, returning the pointer to the map key. -/
def ToType (type_proto : TypeProto) (st : InternState) :
    Except TypeError (DataType × InternState) :=
  match ToString type_proto "" "" with
  | .error e => .error e
  | .ok typeStr =>
      if (st.find? (fun kv => kv.1 == typeStr)).isSome then
        .ok (typeStr, st)
      else
        .ok (typeStr, st ++ [(typeStr, type_proto)])

/-- Models `DataTypeUtils::ToType(const std::string&)` (the spec's
`internFromString`): parse, then intern the resulting proto. -/
def ToTypeOfString (type_str : String) (st : InternState) :
    Except TypeError (DataType × InternState) :=
  match FromString type_str with
  | .error e => .error e
  | .ok p => ToType p st

/-- The canonical string of an input: parse followed by format with the
default empty decorations (the normalization performed inside
`ToType(const std::string&)`). -/
def canonicalOf (type_str : String) : Except TypeError String :=
  match FromString type_str with
  | .error e => .error e
  | .ok p => ToString p "" ""

/-- The trimmed text left over by `FromString` after the optional
`"tensor"` prefix strip and `ParensWhitespaceStrip` unwrapping — exactly
the string `FromString` hands to `FromDataTypeString`. -/
def unwrappedText (type_str : String) : String :=
  let s := mkStringRange type_str
  let p := LStripSR s (mkStringRange "tensor")
  if p.2 then rangeToString (ParensWhitespaceStrip p.1)
  else rangeToString p.1

/-- C3: `FromString "float"` yields a tensor proto with a present rank-0
shape (scalar), `FromString "tensor(float)"` yields one with no shape at
all (unshaped dense tensor), both with element type `float`, and the two
resulting descriptors are distinct values. -/
theorem c3_scalar_vs_tensor_descriptor :
    FromString "float" =
      .ok (TypeProto.tensorType TensorProto_DataType_FLOAT (some [])) ∧
    FromString "tensor(float)" =
      .ok (TypeProto.tensorType TensorProto_DataType_FLOAT none) ∧
    TypeProto.tensorType TensorProto_DataType_FLOAT (some []) ≠
      TypeProto.tensorType TensorProto_DataType_FLOAT none := by
  decide

/-- C4: whenever the trimmed text left after the optional `tensor(...)`
unwrapping is not in the registry's validity set, `FromString` fails with
`InvalidTypeString` instead of producing a descriptor. -/
theorem c4_invalid_type_string_rejected (s : String)
    (h : IsValidDataTypeString (unwrappedText s) = false) :
    FromString s = .error .InvalidTypeString := by
  unfold FromString unwrappedText at *
  by_cases hb : (LStripSR (mkStringRange s) (mkStringRange "tensor")).2 = true
  · simp only [hb, if_true] at h ⊢
    simp [FromDataTypeString, h, Except.map]
  · simp only [Bool.not_eq_true] at hb
    simp only [hb, Bool.false_eq_true, if_false] at h ⊢
    simp [FromDataTypeString, h, Except.map]

/-- Witness for C4 at the two inputs named by the claim. -/
theorem c4_invalid_type_string_rejected_witness :
    (IsValidDataTypeString (unwrappedText "tensor(notatype)") = false ∧
      FromString "tensor(notatype)" = .error .InvalidTypeString) ∧
    (IsValidDataTypeString (unwrappedText "notatype") = false ∧
      FromString "notatype" = .error .InvalidTypeString) :=
  ⟨⟨by decide, c4_invalid_type_string_rejected "tensor(notatype)" (by decide)⟩,
   ⟨by decide, c4_invalid_type_string_rejected "notatype" (by decide)⟩⟩

/-- C5: for a tensor descriptor whose element code has a registered name,
a present rank-0 shape formats as `left ++ elementName ++ right`, and every
other tensor descriptor formats as
`left ++ "tensor(" ++ elementName ++ ")" ++ right`; the caller-supplied
decorations wrap the base string exactly once. -/
theorem c5_tostring_decoration (e : Nat) (sh : Option (List Nat))
    (left right name : String) (h : codeToName e = some name) :
    ToString (.tensorType e sh) left right =
      .ok (if sh = some ([] : List Nat) then left ++ name ++ right
           else left ++ "tensor(" ++ name ++ ")" ++ right) := by
  rcases sh with _ | ⟨_ | ⟨d, dims⟩⟩ <;>
    simp [ToString, ToDataTypeString, h, Except.map]

/-- Witness for C5: both the scalar and the general tensor case with the
decorations `left = "("`, `right = ")"`. -/
theorem c5_tostring_decoration_witness :
    ToString (.tensorType TensorProto_DataType_FLOAT (some [])) "(" ")" =
      .ok "(float)" ∧
    ToString (.tensorType TensorProto_DataType_FLOAT none) "(" ")" =
      .ok "(tensor(float))" := by
  constructor
  · rw [c5_tostring_decoration TensorProto_DataType_FLOAT (some []) "(" ")"
      "float" (by decide)]
    decide
  · rw [c5_tostring_decoration TensorProto_DataType_FLOAT none "(" ")"
      "float" (by decide)]
    decide

/-- C2: for every canonical element name `E` in the registry,
`format(parse(E)) = E` and
`format(parse("tensor(" ++ E ++ ")")) = "tensor(" ++ E ++ ")"`, with the
default empty decorations. -/
theorem c2_canonical_roundtrip (E : String) (hE : E ∈ allowed_data_types) :
    canonicalOf E = .ok E ∧
    canonicalOf ("tensor(" ++ E ++ ")") = .ok ("tensor(" ++ E ++ ")") := by
  have h : E ∈ ["float", "float16", "double", "int8", "int16", "int32",
      "int64", "uint8", "uint16", "uint32", "uint64", "complext64",
      "complext128", "string", "bool"] := by
    simpa [allowed_data_types, type_str_to_tensor_data_type] using hE
  simp only [List.mem_cons, List.not_mem_nil, or_false] at h
  rcases h with rfl | rfl | rfl | rfl | rfl | rfl | rfl | rfl | rfl | rfl |
    rfl | rfl | rfl | rfl | rfl <;> exact ⟨by decide, by decide⟩

/-- Witness for C2 at the canonical name `float`. -/
theorem c2_canonical_roundtrip_witness :
    canonicalOf "float" = .ok "float" ∧
    canonicalOf "tensor(float)" = .ok "tensor(float)" :=
  c2_canonical_roundtrip "float" (by decide)

set_option maxHeartbeats 2000000 in
/-- C10: for every valid element name `E`, the inputs with missing or
unbalanced parentheses after `tensor` — `"tensor " ++ E`,
`"tensor(" ++ E` and `"tensor" ++ E ++ ")"` — parse successfully and
yield exactly the unshaped dense-tensor descriptor of
`"tensor(" ++ E ++ ")"`, because each parenthesis strip in
`ParensWhitespaceStrip` is independently optional. -/
theorem c10_lenient_tensor_grammar (E : String)
    (hE : E ∈ allowed_data_types) :
    FromString ("tensor " ++ E) =
      .ok (TypeProto.tensorType ((nameToCode E).getD 0) none) ∧
    FromString ("tensor(" ++ E) =
      .ok (TypeProto.tensorType ((nameToCode E).getD 0) none) ∧
    FromString ("tensor" ++ E ++ ")") =
      .ok (TypeProto.tensorType ((nameToCode E).getD 0) none) ∧
    FromString ("tensor(" ++ E ++ ")") =
      .ok (TypeProto.tensorType ((nameToCode E).getD 0) none) := by
  have h : E ∈ ["float", "float16", "double", "int8", "int16", "int32",
      "int64", "uint8", "uint16", "uint32", "uint64", "complext64",
      "complext128", "string", "bool"] := by
    simpa [allowed_data_types, type_str_to_tensor_data_type] using hE
  simp only [List.mem_cons, List.not_mem_nil, or_false] at h
  rcases h with rfl | rfl | rfl | rfl | rfl | rfl | rfl | rfl | rfl | rfl |
    rfl | rfl | rfl | rfl | rfl <;> exact ⟨by decide, by decide, by decide,
    by decide⟩

/-- Witness for C10 at the canonical name `float`. -/
theorem c10_lenient_tensor_grammar_witness :
    FromString "tensor float" =
      .ok (TypeProto.tensorType ((nameToCode "float").getD 0) none) ∧
    FromString "tensor(float" =
      .ok (TypeProto.tensorType ((nameToCode "float").getD 0) none) ∧
    FromString "tensorfloat)" =
      .ok (TypeProto.tensorType ((nameToCode "float").getD 0) none) ∧
    FromString "tensor(float)" =
      .ok (TypeProto.tensorType ((nameToCode "float").getD 0) none) :=
  c10_lenient_tensor_grammar "float" (by decide)

/-- C7: the registry's validity set is exactly the fifteen canonical names
(with the `complext64`/`complext128` spellings verbatim), and the
name-to-code and code-to-name tables are mutually inverse over them. -/
theorem c7_registry_bijection :
    allowed_data_types =
      ["float", "float16", "double", "int8", "int16", "int32", "int64",
       "uint8", "uint16", "uint32", "uint64", "complext64", "complext128",
       "string", "bool"] ∧
    (∀ n, n ∈ allowed_data_types →
      ∃ c, nameToCode n = some c ∧ codeToName c = some n) ∧
    (∀ c n, codeToName c = some n →
      nameToCode n = some c ∧ n ∈ allowed_data_types) := by
  refine ⟨by decide, ?_, ?_⟩
  · intro n hn
    have h : n ∈ ["float", "float16", "double", "int8", "int16", "int32",
        "int64", "uint8", "uint16", "uint32", "uint64", "complext64",
        "complext128", "string", "bool"] := by
      simpa [allowed_data_types, type_str_to_tensor_data_type] using hn
    simp only [List.mem_cons, List.not_mem_nil, or_false] at h
    rcases h with rfl | rfl | rfl | rfl | rfl | rfl | rfl | rfl | rfl |
      rfl | rfl | rfl | rfl | rfl | rfl
    · exact ⟨TensorProto_DataType_FLOAT, by decide, by decide⟩
    · exact ⟨TensorProto_DataType_FLOAT16, by decide, by decide⟩
    · exact ⟨TensorProto_DataType_DOUBLE, by decide, by decide⟩
    · exact ⟨TensorProto_DataType_INT8, by decide, by decide⟩
    · exact ⟨TensorProto_DataType_INT16, by decide, by decide⟩
    · exact ⟨TensorProto_DataType_INT32, by decide, by decide⟩
    · exact ⟨TensorProto_DataType_INT64, by decide, by decide⟩
    · exact ⟨TensorProto_DataType_UINT8, by decide, by decide⟩
    · exact ⟨TensorProto_DataType_UINT16, by decide, by decide⟩
    · exact ⟨TensorProto_DataType_UINT32, by decide, by decide⟩
    · exact ⟨TensorProto_DataType_UINT64, by decide, by decide⟩
    · exact ⟨TensorProto_DataType_COMPLEX64, by decide, by decide⟩
    · exact ⟨TensorProto_DataType_COMPLEX128, by decide, by decide⟩
    · exact ⟨TensorProto_DataType_STRING, by decide, by decide⟩
    · exact ⟨TensorProto_DataType_BOOL, by decide, by decide⟩
  · intro c n h
    unfold codeToName at h
    cases hf : tensor_data_type_to_type_str.find? (fun p => p.1 == c) with
    | none => rw [hf] at h; simp at h
    | some a =>
        rw [hf] at h
        simp at h
        have hpa := List.find?_some hf
        have hma := List.mem_of_find?_eq_some hf
        simp only [beq_iff_eq] at hpa
        subst hpa
        subst h
        simp only [tensor_data_type_to_type_str,
          type_str_to_tensor_data_type, List.map_cons, List.map_nil,
          List.mem_cons, List.not_mem_nil, or_false] at hma
        rcases hma with rfl | rfl | rfl | rfl | rfl | rfl | rfl | rfl |
          rfl | rfl | rfl | rfl | rfl | rfl | rfl <;>
          exact ⟨by decide, by decide⟩

/-- Witness for C7's two universally quantified conjuncts at the name
`double` and its code. -/
theorem c7_registry_bijection_witness :
    (∃ c, nameToCode "double" = some c ∧ codeToName c = some "double") ∧
    (nameToCode "double" = some TensorProto_DataType_DOUBLE ∧
      "double" ∈ allowed_data_types) :=
  ⟨c7_registry_bijection.2.1 "double" (by decide),
   c7_registry_bijection.2.2 TensorProto_DataType_DOUBLE "double" (by decide)⟩

/-- Inserting a key at the back of the intern table makes later lookups of
that key succeed. -/
theorem find?_key_append_self (st : InternState) (c : String)
    (p : TypeProto) :
    ((st ++ [(c, p)]).find? (fun kv => kv.1 == c)).isSome = true := by
  cases hf : st.find? (fun kv => kv.1 == c) with
  | some a => simp [List.find?_append, hf]
  | none => simp [List.find?_append, hf, List.find?_cons]

/-- C1: two inputs that normalize (parse followed by format) to the same
canonical string `c` intern to the same handle — that canonical string —
and the table gains at most one entry: the second call leaves the table
unchanged and the first adds at most one entry. -/
theorem c1_intern_same_handle (s1 s2 c : String) (st st1 st2 : InternState)
    (h1 h2 : DataType)
    (hc1 : canonicalOf s1 = .ok c) (hc2 : canonicalOf s2 = .ok c)
    (hi1 : ToTypeOfString s1 st = .ok (h1, st1))
    (hi2 : ToTypeOfString s2 st1 = .ok (h2, st2)) :
    h1 = h2 ∧ h1 = c ∧ st2 = st1 ∧ st1.length ≤ st.length + 1 := by
  cases hF1 : FromString s1 with
  | error e =>
    simp only [canonicalOf, hF1] at hc1
    exact Except.noConfusion hc1
  | ok p1 =>
    simp only [canonicalOf, hF1] at hc1
    simp only [ToTypeOfString, hF1] at hi1
    cases hF2 : FromString s2 with
    | error e =>
      simp only [canonicalOf, hF2] at hc2
      exact Except.noConfusion hc2
    | ok p2 =>
      simp only [canonicalOf, hF2] at hc2
      simp only [ToTypeOfString, hF2] at hi2
      simp only [ToType, hc1] at hi1
      simp only [ToType, hc2] at hi2
      by_cases hf : (st.find? (fun kv => kv.1 == c)).isSome = true
      · rw [if_pos hf] at hi1
        simp only [Except.ok.injEq, Prod.mk.injEq] at hi1
        obtain ⟨rfl, rfl⟩ := hi1
        rw [if_pos hf] at hi2
        simp only [Except.ok.injEq, Prod.mk.injEq] at hi2
        obtain ⟨rfl, rfl⟩ := hi2
        exact ⟨rfl, rfl, rfl, Nat.le_succ _⟩
      · rw [if_neg hf] at hi1
        simp only [Except.ok.injEq, Prod.mk.injEq] at hi1
        obtain ⟨rfl, rfl⟩ := hi1
        rw [if_pos (find?_key_append_self st c p1)] at hi2
        simp only [Except.ok.injEq, Prod.mk.injEq] at hi2
        obtain ⟨rfl, rfl⟩ := hi2
        refine ⟨rfl, rfl, rfl, ?_⟩
        simp

/-- Witness for C1: the claim's example pair `" tensor( float ) "` and
`"tensor(float)"`, interned into the empty table. -/
theorem c1_intern_same_handle_witness :
    canonicalOf " tensor( float ) " = .ok "tensor(float)" ∧
    ToTypeOfString " tensor( float ) " [] =
      .ok ("tensor(float)",
        [("tensor(float)",
          TypeProto.tensorType TensorProto_DataType_FLOAT none)]) ∧
    (("tensor(float)" : DataType) = "tensor(float)" ∧
      ("tensor(float)" : DataType) = "tensor(float)" ∧
      ([("tensor(float)",
          TypeProto.tensorType TensorProto_DataType_FLOAT none)] :
            InternState) =
        [("tensor(float)",
          TypeProto.tensorType TensorProto_DataType_FLOAT none)] ∧
      ([("tensor(float)",
          TypeProto.tensorType TensorProto_DataType_FLOAT none)] :
            InternState).length ≤ ([] : InternState).length + 1) :=
  ⟨by decide, by decide,
    c1_intern_same_handle " tensor( float ) " "tensor(float)"
      "tensor(float)" []
      [("tensor(float)", TypeProto.tensorType TensorProto_DataType_FLOAT none)]
      [("tensor(float)", TypeProto.tensorType TensorProto_DataType_FLOAT none)]
      "tensor(float)" "tensor(float)"
      (by decide) (by decide) (by decide) (by decide)⟩

/-- The effect of `RStrip()` on the bytes of a view: remove the trailing
whitespace run. -/
def trimRight (l : List Char) : List Char :=
  l.take (l.length - rspaceCount l)

/-- The effect of `LAndRStrip()` on the bytes of a view: remove the leading
and the trailing whitespace runs. -/
def trimWs (l : List Char) : List Char :=
  trimRight (l.drop (lspaceCount l))

theorem lspaceCount_le (l : List Char) : lspaceCount l ≤ l.length := by
  induction l with
  | nil => simp [lspaceCount]
  | cons c cs ih =>
      by_cases h : isspace c = true
      · simp only [lspaceCount, h, if_true, List.length_cons]
        omega
      · simp only [lspaceCount, h, Bool.false_eq_true, if_false]
        omega

theorem rspaceCount_le (l : List Char) : rspaceCount l ≤ l.length := by
  have := lspaceCount_le l.reverse
  simpa [rspaceCount] using this

theorem lspaceCount_append_all (w l : List Char)
    (hw : ∀ c ∈ w, isspace c = true) :
    lspaceCount (w ++ l) = w.length + lspaceCount l := by
  induction w with
  | nil => simp
  | cons c cs ih =>
      have hc : isspace c = true := hw c (by simp)
      have ih' := ih (fun d hd => hw d (by simp [hd]))
      have hstep : lspaceCount (c :: (cs ++ l)) = lspaceCount (cs ++ l) + 1 := by
        simp [lspaceCount, hc]
      calc lspaceCount ((c :: cs) ++ l)
          = lspaceCount (cs ++ l) + 1 := hstep
        _ = (cs.length + lspaceCount l) + 1 := by rw [ih']
        _ = (c :: cs).length + lspaceCount l := by
            simp only [List.length_cons]
            omega

theorem lspaceCount_cons_false (c : Char) (l : List Char)
    (h : isspace c = false) : lspaceCount (c :: l) = 0 := by
  simp [lspaceCount, h]

theorem isspace_head_false (c : Char) (l : List Char)
    (h : lspaceCount (c :: l) = 0) : isspace c = false := by
  by_cases hc : isspace c = true
  · simp [lspaceCount, hc] at h
  · simpa using hc

theorem rspaceCount_append_all (e w : List Char)
    (hw : ∀ c ∈ w, isspace c = true) :
    rspaceCount (e ++ w) = w.length + rspaceCount e := by
  unfold rspaceCount
  rw [List.reverse_append]
  rw [lspaceCount_append_all w.reverse e.reverse
    (fun c hc => hw c (List.mem_reverse.mp hc))]
  simp

theorem trimRight_append_all (e w : List Char)
    (hw : ∀ c ∈ w, isspace c = true) (he : rspaceCount e = 0) :
    trimRight (e ++ w) = e := by
  unfold trimRight
  rw [rspaceCount_append_all e w hw, he]
  have harith : (e ++ w).length - (w.length + 0) = e.length := by
    simp [List.length_append]
  rw [harith]
  exact List.take_left e w

theorem trimRight_eq_self (e : List Char) (he : rspaceCount e = 0) :
    trimRight e = e := by
  unfold trimRight
  rw [he]
  simp

theorem rspaceCount_snoc_false (x : List Char) (c : Char)
    (h : isspace c = false) : rspaceCount (x ++ [c]) = 0 := by
  unfold rspaceCount
  rw [List.reverse_append]
  simpa using lspaceCount_cons_false c x.reverse h

theorem view_length_le (s : StringRange) : (view s).length ≤ s.size_ := by
  simp only [view, List.length_take]
  omega

theorem view_length (s : StringRange) (h : WF s) :
    (view s).length = s.size_ := by
  unfold WF at h
  simp only [view, List.length_take, List.length_drop]
  omega

theorem WF_LStripN (s : StringRange) (n : Nat) (h : WF s) :
    WF (LStripN s n).1 := by
  unfold LStripN WF at *
  by_cases hn : n ≤ s.size_ <;> simp only [hn, if_true, if_false] <;> omega

theorem view_LStripN (s : StringRange) (n : Nat) (hn : n ≤ s.size_) :
    view (LStripN s n).1 = (view s).drop n := by
  unfold LStripN view
  simp only [hn, if_true]
  rw [List.drop_take, List.drop_drop]

theorem WF_RStripN (s : StringRange) (n : Nat) (h : WF s) :
    WF (RStripN s n).1 := by
  unfold RStripN WF at *
  by_cases hn : n ≤ s.size_ <;> simp only [hn, if_true, if_false] <;> omega

theorem view_RStripN (s : StringRange) (n : Nat) (hn : n ≤ s.size_) :
    view (RStripN s n).1 = (view s).take (s.size_ - n) := by
  unfold RStripN view
  simp only [hn, if_true]
  rw [List.take_take]
  congr 1
  omega

theorem WF_LStripWs (s : StringRange) (h : WF s) : WF (LStripWs s).1 := by
  unfold LStripWs
  by_cases hc : 0 < lspaceCount (view s)
  · rw [if_pos hc]
    exact WF_LStripN s _ h
  · rw [if_neg hc]
    exact h

theorem view_LStripWs (s : StringRange) :
    view (LStripWs s).1 = (view s).drop (lspaceCount (view s)) := by
  unfold LStripWs
  have hle : lspaceCount (view s) ≤ s.size_ :=
    le_trans (lspaceCount_le _) (view_length_le s)
  by_cases hc : 0 < lspaceCount (view s)
  · rw [if_pos hc]
    exact view_LStripN s _ hle
  · have h0 : lspaceCount (view s) = 0 := by omega
    rw [if_neg hc, h0]
    simp

theorem WF_RStripWs (s : StringRange) (h : WF s) : WF (RStripWs s).1 := by
  unfold RStripWs
  by_cases hc : 0 < rspaceCount (view s)
  · rw [if_pos hc]
    exact WF_RStripN s _ h
  · rw [if_neg hc]
    exact h

theorem view_RStripWs (s : StringRange) (h : WF s) :
    view (RStripWs s).1 = trimRight (view s) := by
  unfold RStripWs trimRight
  have hv := view_length s h
  have hle : rspaceCount (view s) ≤ s.size_ := by
    rw [← hv]
    exact rspaceCount_le _
  by_cases hc : 0 < rspaceCount (view s)
  · rw [if_pos hc, view_RStripN s _ hle, hv]
  · have h0 : rspaceCount (view s) = 0 := by omega
    rw [if_neg hc, h0]
    simp

theorem WF_LStripSR (s t : StringRange) (h : WF s) : WF (LStripSR s t).1 := by
  unfold LStripSR
  by_cases hc : StartsWith s t = true
  · rw [if_pos hc]
    exact WF_LStripN s _ h
  · rw [if_neg hc]
    exact h

theorem WF_RStripSR (s t : StringRange) (h : WF s) : WF (RStripSR s t).1 := by
  unfold RStripSR
  by_cases hc : EndsWith s t = true
  · rw [if_pos hc]
    exact WF_RStripN s _ h
  · rw [if_neg hc]
    exact h

theorem WF_LAndRStrip (s : StringRange) (h : WF s) : WF (LAndRStrip s).1 :=
  WF_RStripWs _ (WF_LStripWs s h)

theorem view_LAndRStrip (s : StringRange) (h : WF s) :
    view (LAndRStrip s).1 = trimWs (view s) := by
  show view (RStripWs (LStripWs s).1).1 = _
  rw [view_RStripWs _ (WF_LStripWs s h), view_LStripWs s]
  rfl

theorem paren_open_size : (mkStringRange "(").size_ = 1 := by decide

theorem paren_open_view : view (mkStringRange "(") = ['('] := by decide

theorem paren_close_size : (mkStringRange ")").size_ = 1 := by decide

theorem paren_close_view : view (mkStringRange ")") = [')'] := by decide

theorem view_LStripSR_paren (s : StringRange) (h : WF s) :
    view (LStripSR s (mkStringRange "(")).1 =
      if (view s).take 1 = ['('] then (view s).drop 1 else view s := by
  unfold LStripSR StartsWith
  rw [paren_open_size, paren_open_view]
  by_cases hc : (view s).take 1 = ['(']
  · have h1 : 1 ≤ s.size_ := by
      have hlen := view_length s h
      have hne : view s ≠ [] := by
        intro hnil
        rw [hnil] at hc
        simp at hc
      have hpos : 0 < (view s).length := List.length_pos.mpr hne
      omega
    have hcond : (decide (1 ≤ s.size_) && ((view s).take 1 == ['('])) = true := by
      simp [h1, hc]
    rw [if_pos hcond, if_pos hc]
    exact view_LStripN s 1 h1
  · have hcond :
        ¬((decide (1 ≤ s.size_) && ((view s).take 1 == ['('])) = true) := by
      simp [hc]
    rw [if_neg hcond, if_neg hc]

theorem view_RStripSR_paren (s : StringRange) (h : WF s) :
    view (RStripSR s (mkStringRange ")")).1 =
      if 1 ≤ (view s).length ∧ (view s).drop ((view s).length - 1) = [')']
      then (view s).take ((view s).length - 1) else view s := by
  have hv := view_length s h
  unfold RStripSR EndsWith
  rw [paren_close_size, paren_close_view]
  by_cases hc : 1 ≤ (view s).length ∧ (view s).drop ((view s).length - 1) = [')']
  · have h1 : 1 ≤ s.size_ := by omega
    have hc2 : (view s).drop (s.size_ - 1) = [')'] := by
      rw [← hv]
      exact hc.2
    have hcond :
        (decide (1 ≤ s.size_) && ((view s).drop (s.size_ - 1) == [')'])) = true := by
      simp [h1, hc2]
    rw [if_pos hcond, if_pos hc, view_RStripN s 1 h1, hv]
  · have hcond :
        ¬((decide (1 ≤ s.size_) && ((view s).drop (s.size_ - 1) == [')'])) = true) := by
      simp only [Bool.and_eq_true, decide_eq_true_eq, beq_iff_eq]
      rw [← hv]
      exact fun hcc => hc ⟨hcc.1, hcc.2⟩
    rw [if_neg hcond, if_neg hc]

/-- The bytes-level computation of `ParensWhitespaceStrip` after the
initial left whitespace strip and `(` strip: `LAndRStrip()`, `RStrip(")")`,
`RStrip()`. -/
def pwsTail (v2 : List Char) : List Char :=
  trimRight
    (if 1 ≤ (trimWs v2).length ∧
        (trimWs v2).drop ((trimWs v2).length - 1) = [')'] then
      (trimWs v2).take ((trimWs v2).length - 1)
    else trimWs v2)

/-- The bytes-level computation of the whole `ParensWhitespaceStrip`. -/
def pwsList (v : List Char) : List Char :=
  pwsTail
    (if (v.drop (lspaceCount v)).take 1 = ['('] then
      (v.drop (lspaceCount v)).drop 1
    else v.drop (lspaceCount v))

theorem view_ParensWhitespaceStrip (s : StringRange) (h : WF s) :
    view (ParensWhitespaceStrip s) = pwsList (view s) := by
  have h1 : WF (LStripWs s).1 := WF_LStripWs s h
  have h2 : WF (LStripSR (LStripWs s).1 (mkStringRange "(")).1 :=
    WF_LStripSR _ _ h1
  have h3 : WF (LAndRStrip (LStripSR (LStripWs s).1 (mkStringRange "(")).1).1 :=
    WF_LAndRStrip _ h2
  have h4 : WF (RStripSR
      (LAndRStrip (LStripSR (LStripWs s).1 (mkStringRange "(")).1).1
      (mkStringRange ")")).1 := WF_RStripSR _ _ h3
  have e1 := view_LStripWs s
  have e2 := view_LStripSR_paren (LStripWs s).1 h1
  have e3 := view_LAndRStrip (LStripSR (LStripWs s).1 (mkStringRange "(")).1 h2
  have e4 := view_RStripSR_paren
    (LAndRStrip (LStripSR (LStripWs s).1 (mkStringRange "(")).1).1 h3
  have e5 := view_RStripWs (RStripSR
    (LAndRStrip (LStripSR (LStripWs s).1 (mkStringRange "(")).1).1
    (mkStringRange ")")).1 h4
  show view (RStripWs (RStripSR
    (LAndRStrip (LStripSR (LStripWs s).1 (mkStringRange "(")).1).1
    (mkStringRange ")")).1).1 = _
  rw [e5, e4, e3, e2, e1]
  rfl

theorem pwsTail_eq (w1 e w2 : List Char) (rp : Bool)
    (hw1 : ∀ c ∈ w1, isspace c = true) (hw2 : ∀ c ∈ w2, isspace c = true)
    (heL : lspaceCount e = 0) (heR : rspaceCount e = 0)
    (hrp : rp = false → e.drop (e.length - 1) ≠ [')']) :
    pwsTail (w1 ++ e ++ w2 ++ (if rp then [')'] else [])) = e := by
  cases rp with
  | true =>
    cases e with
    | nil =>
      have hall : ∀ c ∈ w1 ++ w2, isspace c = true := by
        intro c hc
        rcases List.mem_append.mp hc with h' | h'
        · exact hw1 c h'
        · exact hw2 c h'
      have hX : trimWs (w1 ++ [] ++ w2 ++ [')']) = [')'] := by
        unfold trimWs
        have hassoc : w1 ++ [] ++ w2 ++ [')'] = (w1 ++ w2) ++ [')'] := by simp
        rw [hassoc, lspaceCount_append_all _ _ hall]
        rw [show lspaceCount [')'] = 0 from by decide, Nat.add_zero,
          List.drop_left]
        decide
      unfold pwsTail
      rw [if_pos rfl, hX]
      decide
    | cons c e' =>
      have hc : isspace c = false := isspace_head_false c e' heL
      have hX : trimWs (w1 ++ (c :: e') ++ w2 ++ [')']) =
          ((c :: e') ++ w2) ++ [')'] := by
        unfold trimWs
        have hassoc : w1 ++ (c :: e') ++ w2 ++ [')'] =
            w1 ++ (c :: (e' ++ (w2 ++ [')']))) := by simp
        rw [hassoc, lspaceCount_append_all w1 _ hw1,
          lspaceCount_cons_false _ _ hc, Nat.add_zero, List.drop_left]
        have hshape : (c :: (e' ++ (w2 ++ [')']))) =
            ((c :: e') ++ w2) ++ [')'] := by simp
        rw [hshape]
        exact trimRight_eq_self _ (rspaceCount_snoc_false _ _ (by decide))
      unfold pwsTail
      rw [if_pos rfl, hX]
      have hlen : (((c :: e') ++ w2) ++ [')']).length - 1 =
          ((c :: e') ++ w2).length := by
        simp only [List.length_append, List.length_cons, List.length_nil]
        omega
      rw [hlen, List.drop_left]
      rw [if_pos ⟨by simp, rfl⟩, List.take_left]
      exact trimRight_append_all _ _ hw2 heR
  | false =>
    cases e with
    | nil =>
      have hall : ∀ c ∈ w1 ++ w2, isspace c = true := by
        intro c hc
        rcases List.mem_append.mp hc with h' | h'
        · exact hw1 c h'
        · exact hw2 c h'
      have hX : trimWs (w1 ++ [] ++ w2 ++ []) = [] := by
        unfold trimWs
        have hassoc : w1 ++ [] ++ w2 ++ [] = (w1 ++ w2) ++ [] := by simp
        rw [hassoc]
        rw [lspaceCount_append_all _ _ hall]
        rw [show lspaceCount ([] : List Char) = 0 from rfl, Nat.add_zero,
          List.drop_left]
        decide
      unfold pwsTail
      rw [if_neg Bool.false_ne_true, hX]
      decide
    | cons c e' =>
      have hc : isspace c = false := isspace_head_false c e' heL
      have hX : trimWs (w1 ++ (c :: e') ++ w2 ++ []) = c :: e' := by
        unfold trimWs
        have hassoc : w1 ++ (c :: e') ++ w2 ++ [] =
            w1 ++ (c :: (e' ++ w2)) := by simp
        rw [hassoc, lspaceCount_append_all w1 _ hw1,
          lspaceCount_cons_false _ _ hc, Nat.add_zero, List.drop_left]
        have hshape : (c :: (e' ++ w2)) = (c :: e') ++ w2 := by simp
        rw [hshape]
        exact trimRight_append_all _ _ hw2 heR
      unfold pwsTail
      rw [if_neg Bool.false_ne_true, hX]
      rw [if_neg (fun hcc => hrp rfl hcc.2)]
      exact trimRight_eq_self _ heR

theorem pwsList_eq (lp rp : Bool) (w1 e w2 : List Char)
    (hw1 : ∀ c ∈ w1, isspace c = true) (hw2 : ∀ c ∈ w2, isspace c = true)
    (heL : lspaceCount e = 0) (heR : rspaceCount e = 0)
    (hlp : lp = false → e.take 1 ≠ ['('])
    (hrp : rp = false → e.drop (e.length - 1) ≠ [')']) :
    pwsList ((if lp then ['('] else []) ++ w1 ++ e ++ w2 ++
      (if rp then [')'] else [])) = e := by
  cases lp with
  | true =>
    have hform : (if (true : Bool) then ['('] else ([] : List Char)) ++ w1 ++
        e ++ w2 ++ (if rp then [')'] else []) =
        '(' :: (w1 ++ e ++ w2 ++ (if rp then [')'] else [])) := by simp
    rw [hform]
    unfold pwsList
    rw [lspaceCount_cons_false '(' _ (by decide)]
    simp only [List.drop_zero]
    rw [if_pos (by simp)]
    simp only [List.drop_succ_cons, List.drop_zero]
    exact pwsTail_eq w1 e w2 rp hw1 hw2 heL heR hrp
  | false =>
    cases e with
    | nil =>
      have hall : ∀ c ∈ w1 ++ w2, isspace c = true := by
        intro c hc
        rcases List.mem_append.mp hc with h' | h'
        · exact hw1 c h'
        · exact hw2 c h'
      cases rp with
      | true =>
        have hform : (if (false : Bool) then ['('] else ([] : List Char)) ++
            w1 ++ [] ++ w2 ++ (if (true : Bool) then [')'] else []) =
            (w1 ++ w2) ++ [')'] := by simp
        rw [hform]
        unfold pwsList
        rw [lspaceCount_append_all _ _ hall,
          show lspaceCount [')'] = 0 from by decide, Nat.add_zero,
          List.drop_left]
        decide
      | false =>
        have hform : (if (false : Bool) then ['('] else ([] : List Char)) ++
            w1 ++ [] ++ w2 ++ (if (false : Bool) then [')'] else []) =
            (w1 ++ w2) ++ [] := by simp
        rw [hform]
        unfold pwsList
        rw [lspaceCount_append_all _ _ hall,
          show lspaceCount ([] : List Char) = 0 from rfl, Nat.add_zero,
          List.drop_left]
        decide
    | cons c e' =>
      have hc : isspace c = false := isspace_head_false c e' heL
      have hform : (if (false : Bool) then ['('] else ([] : List Char)) ++
          w1 ++ (c :: e') ++ w2 ++ (if rp then [')'] else []) =
          w1 ++ (c :: (e' ++ (w2 ++ (if rp then [')'] else [])))) := by simp
      rw [hform]
      unfold pwsList
      rw [lspaceCount_append_all w1 _ hw1, lspaceCount_cons_false _ _ hc,
        Nat.add_zero, List.drop_left]
      have hne : ¬((c :: (e' ++ (w2 ++ (if rp then [')'] else [])))).take 1 =
          ['(']) := by
        intro hcc
        apply hlp rfl
        simpa using hcc
      rw [if_neg hne]
      have hshape : (c :: (e' ++ (w2 ++ (if rp then [')'] else [])))) =
          [] ++ (c :: e') ++ w2 ++ (if rp then [')'] else []) := by simp
      rw [hshape]
      exact pwsTail_eq [] (c :: e') w2 rp
        (fun d hd => absurd hd (List.not_mem_nil d)) hw2 heL heR hrp

/-- C6: `ParensWhitespaceStrip` runs left whitespace strip, a single `"("`
strip, both-side whitespace strip, a single `")"` strip and a final right
whitespace strip, in that order; consequently, on any well-formed slice
whose view is of the shape `"( ws element ws )"` — each parenthesis and
whitespace part optional, `element` having no surrounding whitespace, and
not itself starting with `"("` (resp. ending with `")"`) when the
corresponding parenthesis is absent — it leaves exactly the inner
element text. -/
theorem c6_parens_whitespace_strip (s : StringRange) (hwf : WF s)
    (lp rp : Bool) (w1 e w2 : List Char)
    (hv : view s = (if lp then ['('] else []) ++ w1 ++ e ++ w2 ++
      (if rp then [')'] else []))
    (hw1 : ∀ c ∈ w1, isspace c = true) (hw2 : ∀ c ∈ w2, isspace c = true)
    (heL : lspaceCount e = 0) (heR : rspaceCount e = 0)
    (hlp : lp = false → e.take 1 ≠ ['('])
    (hrp : rp = false → e.drop (e.length - 1) ≠ [')']) :
    view (ParensWhitespaceStrip s) = e := by
  rw [view_ParensWhitespaceStrip s hwf, hv]
  exact pwsList_eq lp rp w1 e w2 hw1 hw2 heL heR hlp hrp

/-- Witness for C6 on the slice `"( float )"` (both parentheses and both
whitespace runs present, element `float`). -/
theorem c6_parens_whitespace_strip_witness :
    WF (mkStringRange "( float )") ∧
    view (ParensWhitespaceStrip (mkStringRange "( float )")) =
      ['f', 'l', 'o', 'a', 't'] :=
  ⟨by decide,
    c6_parens_whitespace_strip (mkStringRange "( float )") (by decide)
      true true [' '] ['f', 'l', 'o', 'a', 't'] [' '] (by decide)
      (by decide) (by decide) (by decide) (by decide)
      (by decide) (by decide)⟩

/-- One strip operation of the `StringRange` interface, as a caller may
perform it between `RestartCapture` and `GetCaptured`. -/
inductive StripOp where
  | lstripWs
  | lstripN (n : Nat)
  | lstripStr (t : String)
  | rstripWs
  | rstripN (n : Nat)
  | rstripStr (t : String)
  | landrStrip
  | parensWs
deriving DecidableEq

/-- Run one strip operation on a slice. -/
def applyOp (s : StringRange) : StripOp → StringRange
  | .lstripWs => (LStripWs s).1
  | .lstripN n => (LStripN s n).1
  | .lstripStr t => (LStripSR s (mkStringRange t)).1
  | .rstripWs => (RStripWs s).1
  | .rstripN n => (RStripN s n).1
  | .rstripStr t => (RStripSR s (mkStringRange t)).1
  | .landrStrip => (LAndRStrip s).1
  | .parensWs => ParensWhitespaceStrip s

/-- Run a sequence of strip operations on a slice. -/
def applyOps (s : StringRange) (ops : List StripOp) : StringRange :=
  ops.foldl applyOp s

/-- What any strip operation preserves: the buffer, the capture start, the
front edge only advancing, the `end_ = data_` synchronization (every
`LStrip` advances `end_` exactly as far as `data_`), and well-formedness. -/
def Step (s t : StringRange) : Prop :=
  t.buf = s.buf ∧ t.start_ = s.start_ ∧ s.off ≤ t.off ∧
  (s.endp = s.off → t.endp = t.off) ∧ (WF s → WF t)

theorem Step_rfl (s : StringRange) : Step s s :=
  ⟨rfl, rfl, Nat.le_refl _, fun h => h, fun h => h⟩

theorem Step_trans {s t u : StringRange} (h1 : Step s t) (h2 : Step t u) :
    Step s u := by
  obtain ⟨b1, s1, o1, c1, w1⟩ := h1
  obtain ⟨b2, s2, o2, c2, w2⟩ := h2
  exact ⟨b2.trans b1, s2.trans s1, Nat.le_trans o1 o2,
    fun h => c2 (c1 h), fun h => w2 (w1 h)⟩

theorem Step_LStripN (s : StringRange) (n : Nat) : Step s (LStripN s n).1 := by
  unfold Step LStripN WF
  by_cases hn : n ≤ s.size_
  · rw [if_pos hn]
    refine ⟨rfl, rfl, Nat.le_add_right _ _, ?_, ?_⟩
    · intro h
      show s.endp + n = s.off + n
      omega
    · intro h
      show s.off + n + (s.size_ - n) ≤ s.buf.length
      omega
  · rw [if_neg hn]
    exact ⟨rfl, rfl, Nat.le_refl _, fun h => h, fun h => h⟩

theorem Step_RStripN (s : StringRange) (n : Nat) : Step s (RStripN s n).1 := by
  unfold Step RStripN WF
  by_cases hn : n ≤ s.size_
  · rw [if_pos hn]
    refine ⟨rfl, rfl, Nat.le_refl _, fun h => h, ?_⟩
    intro h
    show s.off + (s.size_ - n) ≤ s.buf.length
    omega
  · rw [if_neg hn]
    exact ⟨rfl, rfl, Nat.le_refl _, fun h => h, fun h => h⟩

theorem Step_LStripWs (s : StringRange) : Step s (LStripWs s).1 := by
  unfold LStripWs
  by_cases hc : 0 < lspaceCount (view s)
  · rw [if_pos hc]
    exact Step_LStripN s _
  · rw [if_neg hc]
    exact Step_rfl s

theorem Step_RStripWs (s : StringRange) : Step s (RStripWs s).1 := by
  unfold RStripWs
  by_cases hc : 0 < rspaceCount (view s)
  · rw [if_pos hc]
    exact Step_RStripN s _
  · rw [if_neg hc]
    exact Step_rfl s

theorem Step_LStripSR (s t : StringRange) : Step s (LStripSR s t).1 := by
  unfold LStripSR
  by_cases hc : StartsWith s t = true
  · rw [if_pos hc]
    exact Step_LStripN s _
  · rw [if_neg hc]
    exact Step_rfl s

theorem Step_RStripSR (s t : StringRange) : Step s (RStripSR s t).1 := by
  unfold RStripSR
  by_cases hc : EndsWith s t = true
  · rw [if_pos hc]
    exact Step_RStripN s _
  · rw [if_neg hc]
    exact Step_rfl s

theorem Step_LAndRStrip (s : StringRange) : Step s (LAndRStrip s).1 :=
  Step_trans (Step_LStripWs s) (Step_RStripWs (LStripWs s).1)

theorem Step_ParensWhitespaceStrip (s : StringRange) :
    Step s (ParensWhitespaceStrip s) :=
  Step_trans (Step_LStripWs s)
    (Step_trans (Step_LStripSR (LStripWs s).1 (mkStringRange "("))
      (Step_trans (Step_LAndRStrip _)
        (Step_trans (Step_RStripSR _ (mkStringRange ")"))
          (Step_RStripWs _))))

theorem Step_applyOp (s : StringRange) (op : StripOp) :
    Step s (applyOp s op) := by
  cases op with
  | lstripWs => exact Step_LStripWs s
  | lstripN n => exact Step_LStripN s n
  | lstripStr t => exact Step_LStripSR s (mkStringRange t)
  | rstripWs => exact Step_RStripWs s
  | rstripN n => exact Step_RStripN s n
  | rstripStr t => exact Step_RStripSR s (mkStringRange t)
  | landrStrip => exact Step_LAndRStrip s
  | parensWs => exact Step_ParensWhitespaceStrip s

theorem Step_applyOps (ops : List StripOp) :
    ∀ s : StringRange, Step s (applyOps s ops) := by
  induction ops with
  | nil => exact fun s => Step_rfl s
  | cons op t ih =>
      intro s
      exact Step_trans (Step_applyOp s op) (ih (applyOp s op))

/-- The view of `GetCaptured`: the raw bytes between `start_` and `end_`,
whitespace-trimmed by the `StringRange(const char*, size_t)` constructor. -/
theorem view_GetCaptured (s : StringRange) (hse : s.start_ ≤ s.endp)
    (hbl : s.endp ≤ s.buf.length) :
    view (GetCaptured s) =
      trimWs ((s.buf.drop s.start_).take (s.endp - s.start_)) := by
  have hwf : WF (StringRange.mk s.buf s.start_ (s.endp - s.start_)
      s.start_ s.start_) := by
    show s.start_ + (s.endp - s.start_) ≤ s.buf.length
    omega
  show view (LAndRStrip (StringRange.mk s.buf s.start_ (s.endp - s.start_)
      s.start_ s.start_)).1 = _
  rw [view_LAndRStrip _ hwf]
  rfl

/-- C8 counterexample: on the slice over `"x  y"`, after a reset and a
left strip of three bytes, the consumed text is `"x  "` (three bytes) but
`GetCaptured` returns a slice whose bytes are `"x"` — the constructor it
uses trims whitespace, so the captured slice is not byte-for-byte the
consumed text. -/
theorem c8_captured_not_byte_exact :
    view (GetCaptured (applyOps (RestartCapture (mkStringRange "x  y"))
        [StripOp.lstripN 3])) ≠
      (((mkStringRange "x  y").buf.drop (mkStringRange "x  y").off).take
        ((applyOps (RestartCapture (mkStringRange "x  y"))
            [StripOp.lstripN 3]).off - (mkStringRange "x  y").off)) := by
  decide

/-- C8 (amended): after a `RestartCapture` and any sequence of strip
operations, the captured slice's `start_` is the reset position, the front
edge only advances, and `GetCaptured` returns a slice whose bytes are the
text consumed by left strips since the reset with its leading and trailing
whitespace stripped (the trim performed by the constructor `GetCaptured`
uses), rather than that text byte-for-byte. -/
theorem c8_captured_trimmed (s : StringRange) (hwf : WF s)
    (ops : List StripOp) :
    (applyOps (RestartCapture s) ops).start_ = s.off ∧
    s.off ≤ (applyOps (RestartCapture s) ops).off ∧
    view (GetCaptured (applyOps (RestartCapture s) ops)) =
      trimWs ((s.buf.drop s.off).take
        ((applyOps (RestartCapture s) ops).off - s.off)) := by
  obtain ⟨hbuf, hstart, hoff, hcap, hwf'⟩ :=
    Step_applyOps ops (RestartCapture s)
  have hstart' : (applyOps (RestartCapture s) ops).start_ = s.off := hstart
  have hoff' : s.off ≤ (applyOps (RestartCapture s) ops).off := hoff
  have hbuf' : (applyOps (RestartCapture s) ops).buf = s.buf := hbuf
  have hend : (applyOps (RestartCapture s) ops).endp =
      (applyOps (RestartCapture s) ops).off := hcap rfl
  have hwf'' : WF (applyOps (RestartCapture s) ops) := hwf' hwf
  refine ⟨hstart', hoff', ?_⟩
  have hse : (applyOps (RestartCapture s) ops).start_ ≤
      (applyOps (RestartCapture s) ops).endp := by
    rw [hend, hstart']
    exact hoff'
  have hbl : (applyOps (RestartCapture s) ops).endp ≤
      (applyOps (RestartCapture s) ops).buf.length := by
    rw [hend]
    unfold WF at hwf''
    omega
  rw [view_GetCaptured _ hse hbl, hstart', hend, hbuf']

/-- Witness for the amended C8 at the slice over `"x  y"` with a reset and
a three-byte left strip. -/
theorem c8_captured_trimmed_witness :
    (applyOps (RestartCapture (mkStringRange "x  y"))
        [StripOp.lstripN 3]).start_ = (mkStringRange "x  y").off ∧
    (mkStringRange "x  y").off ≤
      (applyOps (RestartCapture (mkStringRange "x  y"))
        [StripOp.lstripN 3]).off ∧
    view (GetCaptured (applyOps (RestartCapture (mkStringRange "x  y"))
        [StripOp.lstripN 3])) =
      trimWs (((mkStringRange "x  y").buf.drop (mkStringRange "x  y").off).take
        ((applyOps (RestartCapture (mkStringRange "x  y"))
            [StripOp.lstripN 3]).off - (mkStringRange "x  y").off)) :=
  c8_captured_trimmed (mkStringRange "x  y") (by decide) [StripOp.lstripN 3]

end Utils
end Onnx
